import Mathlib

/-!
# Verification of the session tracking and aggregation engine

Shallow embedding of the core of `rescuetime-linux-mutter`: the session
tracker (`StartSession`, `endCurrentSessionUnsafe`, merge rules), the
aggregator (`GetActivitySummaries`), the ignore list, the payload
conversion/validation (`summaryToPayload`, `validatePayload`) and the
submission loop (`submitActivitiesToRescueTime`).

Conventions of the embedding:
* Go `time.Time` and `time.Duration` are modelled as `Int` nanoseconds
  (Go stores both as 64-bit nanosecond counts; no arithmetic here comes
  near 2^63, so plain `Int` is faithful).
* The Go map `map[string]ActivitySummary` is modelled as an association
  list updated in place (`mapInsert` / `mapLookup`); every property
  proved about it is order-independent (sums, counts, membership).
* External effects (file writes, HTTP submissions) are modelled as
  returned values respectively boolean oracles passed as parameters.
-/

namespace RescueTime

/-- Nanoseconds per minute (`time.Minute`). -/
def nsPerMinute : Int := 60 * 1000000000

/-- `maxOfflineDuration = 4 * time.Hour` — RescueTime API limit for offline time. -/
def maxOfflineDuration : Int := 4 * 60 * 60 * 1000000000

/-- `defaultMergeThreshold = 30 * time.Second`. -/
def defaultMergeThreshold : Int := 30 * 1000000000

/-- `defaultMinDuration = 10 * time.Second`. -/
def defaultMinDuration : Int := 10 * 1000000000

/-- `ActivitySession` — a single continuous session with an application. -/
structure ActivitySession where
  StartTime : Int
  EndTime : Int
  AppClass : String
  WindowTitle : String
  Duration : Int
  Active : Bool
deriving DecidableEq, Repr

/-- `ActivitySummary` — aggregated time spent in an application. -/
structure ActivitySummary where
  AppClass : String
  ActivityDetails : String
  TotalDuration : Int
  SessionCount : Int
  FirstSeen : Int
  LastSeen : Int
deriving DecidableEq, Repr

/-- `ActivityTracker` — tracker state.  The `sync.RWMutex` is omitted: the
claims below are about the sequential semantics of each operation under
the single-writer discipline the lock enforces. -/
structure ActivityTracker where
  currentSession : Option ActivitySession
  sessions : List ActivitySession
  mergeThreshold : Int
  minDuration : Int
  ignoredApps : List String
  ignoreConfigPath : String
deriving DecidableEq, Repr

/-- `isAppIgnored` — Go map lookup with `false` default. -/
def isAppIgnored (at_ : ActivityTracker) (appClass : String) : Bool :=
  at_.ignoredApps.contains appClass

/-- `shouldMergeWithLastSession` — merge only when the closed-session list is
non-empty, the last entry has the same `AppClass` as the closing session, and
the gap `currentSession.StartTime - lastSession.EndTime` is `<= mergeThreshold`. -/
def shouldMergeWithLastSession (at_ : ActivityTracker) : Bool :=
  match at_.sessions.getLast?, at_.currentSession with
  | some lastSession, some cur =>
      lastSession.AppClass == cur.AppClass
        && decide (cur.StartTime - lastSession.EndTime ≤ at_.mergeThreshold)
  | _, _ => false

/-- `mergeWithLastSession` — extend the last stored session to the closing
session's `EndTime`, recompute its `Duration` from the extended endpoints, and
take the closing session's `WindowTitle`. -/
def mergeWithLastSession (at_ : ActivityTracker) : ActivityTracker :=
  match at_.sessions.getLast?, at_.currentSession with
  | some lastSession, some cur =>
      let merged : ActivitySession :=
        { lastSession with
            EndTime := cur.EndTime
            Duration := cur.EndTime - lastSession.StartTime
            WindowTitle := cur.WindowTitle }
      { at_ with sessions := at_.sessions.dropLast ++ [merged] }
  | _, _ => at_

/-- `endCurrentSessionUnsafe` — close the current session at `endTime`:
set `EndTime`, `Duration = endTime - StartTime`, `Active = false`; store it
(append or merge) only when `Duration >= minDuration`. -/
def endCurrentSessionUnsafe (at_ : ActivityTracker) (endTime : Int) : ActivityTracker :=
  match at_.currentSession with
  | none => at_
  | some cur =>
    if cur.Active = false then at_
    else
      let closed : ActivitySession :=
        { cur with
            EndTime := endTime
            Duration := endTime - cur.StartTime
            Active := false }
      let at1 : ActivityTracker := { at_ with currentSession := some closed }
      if at1.minDuration ≤ closed.Duration then
        if shouldMergeWithLastSession at1 then
          mergeWithLastSession at1
        else
          { at1 with sessions := at1.sessions ++ [closed] }
      else at1

/-- `EndCurrentSession` — public wrapper; `time.Now()` passed as `now`. -/
def EndCurrentSession (at_ : ActivityTracker) (now : Int) : ActivityTracker :=
  endCurrentSessionUnsafe at_ now

/-- `StartSession` — if the application is ignored, end the current session
(if active) and leave no session open; otherwise end the current session (if
active) and open a fresh one at `now`. -/
def StartSession (at_ : ActivityTracker) (appClass windowTitle : String) (now : Int) :
    ActivityTracker :=
  if isAppIgnored at_ appClass then
    let at1 :=
      if (at_.currentSession.map (·.Active)).getD false then
        endCurrentSessionUnsafe at_ now
      else at_
    { at1 with currentSession := none }
  else
    let at1 :=
      if (at_.currentSession.map (·.Active)).getD false then
        endCurrentSessionUnsafe at_ now
      else at_
    { at1 with
        currentSession := some
          { StartTime := now
            EndTime := 0
            AppClass := appClass
            WindowTitle := windowTitle
            Duration := 0
            Active := true } }

/-- `ClearCompletedSessions` — drop all stored sessions, keep the current one. -/
def ClearCompletedSessions (at_ : ActivityTracker) : ActivityTracker :=
  { at_ with sessions := [] }

/-- The fixed header comment block written by `saveIgnoredApps`. -/
def ignoreFileHeader : List String :=
  ["# RescueTime Ignored Applications",
   "# One WmClass per line",
   "# Lines starting with # are comments",
   ""]

/-- `saveIgnoredApps` — the lines written to the ignore file: the fixed
header block followed by one application class per line. -/
def saveIgnoredApps (at_ : ActivityTracker) : List String :=
  ignoreFileHeader ++ at_.ignoredApps

/-- `addIgnoredApp` — insert into the ignore set (a Go map: inserting an
existing key is a no-op), then save the file.  Returns the new tracker state
and the lines written to the ignore file. -/
def addIgnoredApp (at_ : ActivityTracker) (appClass : String) :
    ActivityTracker × List String :=
  let at1 : ActivityTracker :=
    { at_ with
        ignoredApps :=
          if at_.ignoredApps.contains appClass then at_.ignoredApps
          else at_.ignoredApps ++ [appClass] }
  (at1, saveIgnoredApps at1)

/-- The summary map `map[string]ActivitySummary`, as an association list. -/
abbrev SummaryMap := List (String × ActivitySummary)

/-- Go map read `summaries[key]`. -/
def mapLookup (m : SummaryMap) (k : String) : Option ActivitySummary :=
  match m with
  | [] => none
  | (k', v') :: rest => if k' == k then some v' else mapLookup rest k

/-- Go map write `summaries[key] = summary`: replace an existing binding or
add a new one. -/
def mapInsert (m : SummaryMap) (k : String) (v : ActivitySummary) : SummaryMap :=
  match m with
  | [] => [(k, v)]
  | (k', v') :: rest =>
      if k' == k then (k, v) :: rest else (k', v') :: mapInsert rest k v

/-- The loop body of `GetActivitySummaries` over one completed session:
find-or-create the summary keyed by `AppClass`, accumulate duration and
count, widen the `FirstSeen`/`LastSeen` bounds, and take the window title of
the most recently *ended* session as `ActivityDetails`. -/
def foldClosedSession (m : SummaryMap) (session : ActivitySession) : SummaryMap :=
  let summary : ActivitySummary :=
    match mapLookup m session.AppClass with
    | some s => s
    | none =>
        { AppClass := session.AppClass
          ActivityDetails := session.WindowTitle
          TotalDuration := 0
          SessionCount := 0
          FirstSeen := session.StartTime
          LastSeen := session.EndTime }
  let summary :=
    { summary with
        TotalDuration := summary.TotalDuration + session.Duration
        SessionCount := summary.SessionCount + 1 }
  let summary :=
    if session.StartTime < summary.FirstSeen then
      { summary with FirstSeen := session.StartTime }
    else summary
  let summary :=
    if summary.LastSeen < session.EndTime then
      { summary with LastSeen := session.EndTime, ActivityDetails := session.WindowTitle }
    else summary
  mapInsert m session.AppClass summary

/-- The final block of `GetActivitySummaries`: fold in the currently active
session with provisional duration `now - StartTime`, and unconditionally
overwrite `ActivityDetails`/`LastSeen` with the live title and `now`. -/
def foldOpenSession (m : SummaryMap) (cur : ActivitySession) (now : Int) : SummaryMap :=
  let currentDuration := now - cur.StartTime
  let summary : ActivitySummary :=
    match mapLookup m cur.AppClass with
    | some s => s
    | none =>
        { AppClass := cur.AppClass
          ActivityDetails := cur.WindowTitle
          TotalDuration := 0
          SessionCount := 0
          FirstSeen := cur.StartTime
          LastSeen := now }
  let summary :=
    { summary with
        TotalDuration := summary.TotalDuration + currentDuration
        SessionCount := summary.SessionCount + 1
        ActivityDetails := cur.WindowTitle
        LastSeen := now }
  mapInsert m cur.AppClass summary

/-- `GetActivitySummaries` — aggregate all completed sessions, then include
the current active session (computed as if closed at `now`). -/
def GetActivitySummaries (at_ : ActivityTracker) (now : Int) : SummaryMap :=
  let summaries := at_.sessions.foldl foldClosedSession []
  match at_.currentSession with
  | some cur =>
      if cur.Active then foldOpenSession summaries cur now else summaries
  | none => summaries

/-- `RescueTimePayload` — legacy offline time API shape. -/
structure RescueTimePayload where
  StartTime : String
  Duration : Int
  ActivityName : String
  ActivityDetails : String
deriving DecidableEq, Repr

/-- `int(math.Ceil(d.Minutes()))` — Go computes the exact rational
`d / time.Minute` in `float64` and ceils it; for every duration this program
can produce the value is exactly the integer ceiling of `d / nsPerMinute`,
which is what `Int.ediv` with the `+ nsPerMinute - 1` offset computes. -/
def ceilMinutes (d : Int) : Int :=
  Int.ediv (d + nsPerMinute - 1) nsPerMinute

/-- `summaryToPayload` — convert a summary to the legacy payload: minutes
rounded up, `FirstSeen` formatted as the start-time string, `AppClass` as the
activity name.  The Go timestamp formatting is an external rendering detail;
it is kept abstract via `formatDateTime` below, which the claims never need
to inspect. -/
def formatDateTime (t : Int) : String :=
  toString t

def summaryToPayload (summary : ActivitySummary) : RescueTimePayload :=
  { StartTime := formatDateTime summary.FirstSeen
    Duration := ceilMinutes summary.TotalDuration
    ActivityName := summary.AppClass
    ActivityDetails := summary.ActivityDetails }

/-- Digit test for the `time.Parse` model. -/
def isDigitChar (c : Char) : Bool :=
  decide ('0' ≤ c) && decide (c ≤ '9')

def digitVal (c : Char) : Nat := c.toNat - '0'.toNat

/-- Leap-year rule used by Go's `daysIn`. -/
def isLeapYear (y : Nat) : Bool :=
  y % 4 == 0 && (y % 100 != 0 || y % 400 == 0)

/-- Days in a month, per Go's `daysIn`. -/
def daysIn (year month : Nat) : Nat :=
  if month = 2 then (if isLeapYear year then 29 else 28)
  else if month = 4 ∨ month = 6 ∨ month = 9 ∨ month = 11 then 30
  else 31

/-- Minute/second tail `MM:SS` of the clock: fixed two-digit fields, nothing
after the seconds (Go's `Parse` rejects trailing text), with Go's range
checks `hour < 24`, `min < 60`, `sec < 60`. -/
def parseMinSec (hour : Nat) (cs : List Char) : Bool :=
  match cs with
  | [m1, m2, ':', s1, s2] =>
      isDigitChar m1 && isDigitChar m2 && isDigitChar s1 && isDigitChar s2
        && decide (hour < 24)
        && decide (10 * digitVal m1 + digitVal m2 < 60)
        && decide (10 * digitVal s1 + digitVal s2 < 60)
  | _ => false

/-- Clock part `HH:MM:SS` of the layout: the hour field (`15`) is parsed by
Go with `getnum(value, false)`, so one or two digits are accepted. -/
def parseClock (cs : List Char) : Bool :=
  match cs with
  | h1 :: ':' :: rest => isDigitChar h1 && parseMinSec (digitVal h1) rest
  | h1 :: h2 :: ':' :: rest =>
      isDigitChar h1 && isDigitChar h2
        && parseMinSec (10 * digitVal h1 + digitVal h2) rest
  | _ => false

/-- Model of `time.Parse("2006-01-02 15:04:05", s)` succeeding: a four-digit
year, fixed two-digit month and day, the literal separators, the clock part,
and Go's range checks (month in `1..12`, day in `1..daysIn`). -/
def parseDateTime (s : String) : Bool :=
  match s.toList with
  | y1 :: y2 :: y3 :: y4 :: '-' :: m1 :: m2 :: '-' :: d1 :: d2 :: ' ' :: rest =>
      isDigitChar y1 && isDigitChar y2 && isDigitChar y3 && isDigitChar y4
        && isDigitChar m1 && isDigitChar m2 && isDigitChar d1 && isDigitChar d2
        &&
        (let year := 1000 * digitVal y1 + 100 * digitVal y2 + 10 * digitVal y3 + digitVal y4
         let month := 10 * digitVal m1 + digitVal m2
         let day := 10 * digitVal d1 + digitVal d2
         decide (1 ≤ month) && decide (month ≤ 12)
           && decide (1 ≤ day) && decide (day ≤ daysIn year month))
        && parseClock rest
  | _ => false

/-- The distinct failure causes of `validatePayload` (the Go code returns
`fmt.Errorf` values; only which check fired is observable to the claims). -/
inductive ValidationError where
  | emptyActivityName
  | nonPositiveDuration
  | durationExceedsLimit
  | emptyStartTime
  | invalidStartTimeFormat
deriving DecidableEq, Repr

/-- `validatePayload` — checks in source order: non-empty activity name,
positive duration, duration `<= int(maxOfflineDuration.Minutes())` (= 240),
non-empty start time, start time parsing under `"2006-01-02 15:04:05"`. -/
def validatePayload (payload : RescueTimePayload) : Option ValidationError :=
  if payload.ActivityName = "" then some .emptyActivityName
  else if payload.Duration ≤ 0 then some .nonPositiveDuration
  else if Int.ediv maxOfflineDuration nsPerMinute < payload.Duration then
    some .durationExceedsLimit
  else if payload.StartTime = "" then some .emptyStartTime
  else if parseDateTime payload.StartTime then none
  else some .invalidStartTimeFormat

/-- Modelled from the spec: `splitLongDurationSummaries` / the Duration
Chunker of §4.3 — its implementation is absent from src (only its test,
`TestSplitLongDurationSummaries`, is present).  Per the spec contract
`chunk(summary, maxChunkDuration)`: a summary whose `TotalDuration` is at
most the cap is returned unchanged as a single-element list; otherwise the
summary is split into chunks of at most the cap whose durations sum exactly
to the original and whose `[FirstSeen, LastSeen)` windows are contiguous
sub-intervals in chronological order. -/
def chunk (s : ActivitySummary) (maxChunkDuration : Int) : List ActivitySummary :=
  if s.TotalDuration ≤ maxChunkDuration ∨ maxChunkDuration ≤ 0 then [s]
  else
    { s with
        TotalDuration := maxChunkDuration
        LastSeen := s.FirstSeen + maxChunkDuration } ::
      chunk
        { s with
            TotalDuration := s.TotalDuration - maxChunkDuration
            FirstSeen := s.FirstSeen + maxChunkDuration }
        maxChunkDuration
termination_by s.TotalDuration.toNat
decreasing_by
  simp only [not_or, not_le] at *
  omega

/-- Sum of the chunk durations of a list of summaries. -/
def sumTotalDuration (l : List ActivitySummary) : Int :=
  (l.map (fun s => s.TotalDuration)).sum

/-- The 5-minute submission floor of `submitActivitiesToRescueTime`. -/
def rescueTimeMinimumSubmit : Int := 5 * 60 * 1000000000

/-- One iteration of the `submitActivitiesToRescueTime` loop, after the
5-minute skip: with native credentials, try the native API; on its failure
fall back to the legacy payload, which is validated before being sent — a
validation failure makes the whole item fail without any legacy submission.
Without native credentials the legacy path is taken directly.  The network
outcomes are oracles `nativeOk`/`legacyOk`; the result is `true` iff the
item counts as a success. -/
def submitOneSummary (hasNativeCredentials : Bool)
    (nativeOk : ActivitySummary → Bool) (legacyOk : RescueTimePayload → Bool)
    (summary : ActivitySummary) : Bool :=
  if hasNativeCredentials then
    if nativeOk summary then true
    else
      let legacyPayload := summaryToPayload summary
      match validatePayload legacyPayload with
      | some _ => false
      | none => legacyOk legacyPayload
  else
    let payload := summaryToPayload summary
    match validatePayload payload with
    | some _ => false
    | none => legacyOk payload

/-- The counters and the ghost list of summaries for which a submission was
actually attempted (a payload built and the APIs consulted). -/
structure SubmitOutcome where
  successCount : Nat
  failCount : Nat
  attempted : List ActivitySummary
deriving DecidableEq, Repr

/-- One iteration of the `submitActivitiesToRescueTime` loop: `continue`
past summaries under five minutes before building any payload, otherwise
submit and count the outcome. -/
def submitStep (hasNativeCredentials : Bool)
    (nativeOk : ActivitySummary → Bool) (legacyOk : RescueTimePayload → Bool)
    (acc : SubmitOutcome) (summary : ActivitySummary) : SubmitOutcome :=
  if summary.TotalDuration < rescueTimeMinimumSubmit then acc
  else if submitOneSummary hasNativeCredentials nativeOk legacyOk summary then
    { acc with
        successCount := acc.successCount + 1
        attempted := acc.attempted ++ [summary] }
  else
    { acc with
        failCount := acc.failCount + 1
        attempted := acc.attempted ++ [summary] }

/-- `submitActivitiesToRescueTime` — iterate over the summaries; every
summary with `TotalDuration < 5 minutes` is skipped (`continue`) before any
payload is built, counting neither as a success nor as a failure; the rest
are submitted via `submitOneSummary` and counted. -/
def submitActivitiesToRescueTime (hasNativeCredentials : Bool)
    (nativeOk : ActivitySummary → Bool) (legacyOk : RescueTimePayload → Bool)
    (summaries : List ActivitySummary) : SubmitOutcome :=
  summaries.foldl (submitStep hasNativeCredentials nativeOk legacyOk) ⟨0, 0, []⟩

/-- Sum of `TotalDuration` over all summaries of a summary map. -/
def mapSumDur (m : SummaryMap) : Int :=
  (m.map (fun p => p.2.TotalDuration)).sum

/-- Sum of `SessionCount` over all summaries of a summary map. -/
def mapSumCount (m : SummaryMap) : Int :=
  (m.map (fun p => p.2.SessionCount)).sum

/-- The mutating tracker operations of the single-writer poll loop. -/
inductive TrackerOp where
  | startSession (appClass windowTitle : String)
  | endCurrentSession
  | clearCompletedSessions
deriving DecidableEq, Repr

/-- Apply one tracker operation, with `time.Now()` passed as `now`. -/
def applyOp (at_ : ActivityTracker) (op : TrackerOp) (now : Int) : ActivityTracker :=
  match op with
  | .startSession appClass windowTitle => StartSession at_ appClass windowTitle now
  | .endCurrentSession => EndCurrentSession at_ now
  | .clearCompletedSessions => ClearCompletedSessions at_

/-- Run a sequence of timestamped tracker operations. -/
def runOps (at_ : ActivityTracker) : List (TrackerOp × Int) → ActivityTracker
  | [] => at_
  | (op, now) :: rest => runOps (applyOp at_ op now) rest

/-- The timestamps of an operation sequence are nondecreasing starting from
`t` — `time.Now()` is monotone across the single-writer call sequence. -/
def timesMonoB : Int → List (TrackerOp × Int) → Bool
  | _, [] => true
  | t, (_, now) :: rest => decide (t ≤ now) && timesMonoB now rest

/-- Wellformedness of a tracker state at clock value `t`: the configured
minimum duration is nonnegative, every stored session has
`Duration = EndTime - StartTime`, `Duration >= minDuration` and ended by
`t`, and an active current session started no earlier than every stored
session's end and no later than `t`. -/
def GoodStateP (at_ : ActivityTracker) (t : Int) : Prop :=
  0 ≤ at_.minDuration ∧
  (∀ s ∈ at_.sessions,
      s.Duration = s.EndTime - s.StartTime ∧
      at_.minDuration ≤ s.Duration ∧ s.EndTime ≤ t) ∧
  (∀ cur, at_.currentSession = some cur → cur.Active = true →
      (∀ s ∈ at_.sessions, s.EndTime ≤ cur.StartTime) ∧ cur.StartTime ≤ t)

/-! Concrete states used to exercise the theorems on explicit inputs. -/

/-- An open, active session for `firefox` started at t = 100s. -/
def openFirefoxSession : ActivitySession :=
  { StartTime := 100000000000
    EndTime := 0
    AppClass := "firefox"
    WindowTitle := "Tab - Firefox"
    Duration := 0
    Active := true }

/-- A closed `firefox` session spanning t = 0s .. 90s. -/
def closedFirefoxSession : ActivitySession :=
  { StartTime := 0
    EndTime := 90000000000
    AppClass := "firefox"
    WindowTitle := "Old Tab - Firefox"
    Duration := 90000000000
    Active := false }

/-- A tracker with default thresholds, one closed `firefox` session and an
open `firefox` session. -/
def trackerWithOpenFirefox : ActivityTracker :=
  { currentSession := some openFirefoxSession
    sessions := [closedFirefoxSession]
    mergeThreshold := defaultMergeThreshold
    minDuration := defaultMinDuration
    ignoredApps := []
    ignoreConfigPath := ".rescuetime-ignore" }

/-- The same tracker with `firefox` already on the ignore list. -/
def trackerIgnoringFirefox : ActivityTracker :=
  { trackerWithOpenFirefox with ignoredApps := ["firefox"] }

/-- A fresh tracker with default thresholds and nothing recorded. -/
def emptyTracker : ActivityTracker :=
  { currentSession := none
    sessions := []
    mergeThreshold := defaultMergeThreshold
    minDuration := defaultMinDuration
    ignoredApps := []
    ignoreConfigPath := ".rescuetime-ignore" }

/-- A 6-hour `steam` summary, as in the chunking test. -/
def sixHourSummary : ActivitySummary :=
  { AppClass := "steam"
    ActivityDetails := "Gaming"
    TotalDuration := 6 * 60 * 60 * 1000000000
    SessionCount := 1
    FirstSeen := 0
    LastSeen := 6 * 60 * 60 * 1000000000 }

/-- A 300-minute payload, over the 240-minute cap. -/
def payload300 : RescueTimePayload :=
  { StartTime := "2025-01-02 03:04:05"
    Duration := 300
    ActivityName := "firefox"
    ActivityDetails := "Tab - Firefox" }

/-- A 240-minute payload, exactly at the cap. -/
def payload240 : RescueTimePayload :=
  { payload300 with Duration := 240 }

/-- A small concrete operation sequence with monotone timestamps: focus
`firefox` at 0s, switch to `code` at 20s, end the session at 50s. -/
def demoOps : List (TrackerOp × Int) :=
  [(.startSession "firefox" "Tab - Firefox", 0),
   (.startSession "code" "main.go - Code", 20000000000),
   (.endCurrentSession, 50000000000)]

/-- The closed `firefox` session that running `demoOps` on the empty tracker
stores. -/
def demoFirefoxClosed : ActivitySession :=
  { StartTime := 0
    EndTime := 20000000000
    AppClass := "firefox"
    WindowTitle := "Tab - Firefox"
    Duration := 20000000000
    Active := false }


/-! ## Lemmas about the summary map -/

theorem mapSum_insert_of_lookup_none (f : ActivitySummary → Int)
    (m : SummaryMap) (k : String) (v : ActivitySummary)
    (h : mapLookup m k = none) :
    ((mapInsert m k v).map (fun p => f p.2)).sum
      = (m.map (fun p => f p.2)).sum + f v := by
  induction m with
  | nil => simp [mapInsert]
  | cons hd tl ih =>
    obtain ⟨k', v'⟩ := hd
    simp only [mapLookup] at h
    by_cases hk : (k' == k) = true
    · simp [hk] at h
    · simp only [mapInsert, hk, if_neg, Bool.false_eq_true, if_false] at *
      simp only [List.map_cons, List.sum_cons, ih h]
      ring

theorem mapSum_insert_of_lookup_some (f : ActivitySummary → Int)
    (m : SummaryMap) (k : String) (v w : ActivitySummary)
    (h : mapLookup m k = some w) :
    ((mapInsert m k v).map (fun p => f p.2)).sum
      = (m.map (fun p => f p.2)).sum + f v - f w := by
  induction m with
  | nil => simp [mapLookup] at h
  | cons hd tl ih =>
    obtain ⟨k', v'⟩ := hd
    simp only [mapLookup] at h
    by_cases hk : (k' == k) = true
    · simp only [hk, if_pos, Option.some.injEq] at h
      subst h
      simp only [mapInsert, hk, if_pos, List.map_cons, List.sum_cons]
      ring
    · simp only [hk, Bool.false_eq_true, if_false] at h
      simp only [mapInsert, hk, Bool.false_eq_true, if_false, List.map_cons,
        List.sum_cons, ih h]
      ring

theorem foldClosedSession_sumDur (m : SummaryMap) (s : ActivitySession) :
    mapSumDur (foldClosedSession m s) = mapSumDur m + s.Duration := by
  unfold foldClosedSession mapSumDur
  cases h : mapLookup m s.AppClass with
  | none =>
    simp only [h]
    rw [mapSum_insert_of_lookup_none _ _ _ _ h]
    split <;> split <;> simp
  | some w =>
    simp only [h]
    rw [mapSum_insert_of_lookup_some _ _ _ _ _ h]
    split <;> split <;> simp <;> ring

theorem foldClosedSession_sumCount (m : SummaryMap) (s : ActivitySession) :
    mapSumCount (foldClosedSession m s) = mapSumCount m + 1 := by
  unfold foldClosedSession mapSumCount
  cases h : mapLookup m s.AppClass with
  | none =>
    simp only [h]
    rw [mapSum_insert_of_lookup_none _ _ _ _ h]
    split <;> split <;> simp
  | some w =>
    simp only [h]
    rw [mapSum_insert_of_lookup_some _ _ _ _ _ h]
    split <;> split <;> simp <;> ring

theorem foldl_sumDur (l : List ActivitySession) (m : SummaryMap) :
    mapSumDur (l.foldl foldClosedSession m)
      = mapSumDur m + (l.map (fun s => s.Duration)).sum := by
  induction l generalizing m with
  | nil => simp
  | cons s tl ih =>
    simp only [List.foldl_cons, List.map_cons, List.sum_cons, ih,
      foldClosedSession_sumDur]
    ring

theorem foldl_sumCount (l : List ActivitySession) (m : SummaryMap) :
    mapSumCount (l.foldl foldClosedSession m) = mapSumCount m + l.length := by
  induction l generalizing m with
  | nil => simp
  | cons s tl ih =>
    simp only [List.foldl_cons, List.length_cons, ih, foldClosedSession_sumCount]
    push_cast
    ring

/-- C3: for every list of closed sessions and no open session,
`GetActivitySummaries` conserves both total duration and session count: the
sum of `TotalDuration` over the returned summaries equals the sum of
`Duration` over the input sessions, and the sum of `SessionCount` equals the
number of input sessions. -/
theorem GetActivitySummaries_conservation
    (sessions : List ActivitySession) (mergeThreshold minDuration : Int)
    (ignoredApps : List String) (path : String) (now : Int) :
    mapSumDur (GetActivitySummaries
        ⟨none, sessions, mergeThreshold, minDuration, ignoredApps, path⟩ now)
      = (sessions.map (fun s => s.Duration)).sum ∧
    mapSumCount (GetActivitySummaries
        ⟨none, sessions, mergeThreshold, minDuration, ignoredApps, path⟩ now)
      = sessions.length := by
  constructor
  · simpa [GetActivitySummaries, mapSumDur] using foldl_sumDur sessions []
  · simpa [GetActivitySummaries, mapSumCount] using foldl_sumCount sessions []

/-! ## Close rule: merge and minimum-duration filter -/

theorem endCurrentSessionUnsafe_inactive (st : ActivityTracker) (now : Int)
    (h : (st.currentSession.map (fun s => s.Active)).getD false = false) :
    endCurrentSessionUnsafe st now = st := by
  cases hc : st.currentSession with
  | none => simp [endCurrentSessionUnsafe, hc]
  | some cur =>
    rw [hc] at h
    simp at h
    simp [endCurrentSessionUnsafe, hc, h]

/-- C1: closing a session whose duration meets `minDuration`, when the
closed-session list ends with an entry of the same application and the gap
`closing.StartTime - last.EndTime` is at most `mergeThreshold`, merges
instead of appending: the list keeps its length, and its last entry gets
`EndTime = now`, a recomputed duration equal to the two sub-durations plus
the gap, and the closing session's window title. -/
theorem merge_on_close
    (st : ActivityTracker) (cur last : ActivitySession) (now : Int)
    (hcur : st.currentSession = some cur) (hact : cur.Active = true)
    (hmin : st.minDuration ≤ now - cur.StartTime)
    (hlast : st.sessions.getLast? = some last)
    (happ : last.AppClass = cur.AppClass)
    (hgap : cur.StartTime - last.EndTime ≤ st.mergeThreshold)
    (hdur : last.Duration = last.EndTime - last.StartTime) :
    (endCurrentSessionUnsafe st now).sessions.length = st.sessions.length ∧
    (endCurrentSessionUnsafe st now).sessions.getLast?
      = some { last with
          EndTime := now
          Duration := last.Duration + (cur.StartTime - last.EndTime)
                        + (now - cur.StartTime)
          WindowTitle := cur.WindowTitle } := by
  have hne : st.sessions ≠ [] := by
    intro h
    rw [h] at hlast
    simp [List.getLast?] at hlast
  have hmerge : shouldMergeWithLastSession
      { st with currentSession := some ({ cur with EndTime := now, Duration := now - cur.StartTime, Active := false }) } = true := by
    unfold shouldMergeWithLastSession
    simp only [hlast]
    simp [happ, hgap]
  have hres : endCurrentSessionUnsafe st now
      = mergeWithLastSession
          { st with currentSession := some ({ cur with EndTime := now, Duration := now - cur.StartTime, Active := false }) } := by
    unfold endCurrentSessionUnsafe
    rw [hcur]
    simp only [hact, Bool.true_eq_false, if_false]
    simp [hmin, hmerge]
  rw [hres]
  unfold mergeWithLastSession
  simp only [hlast]
  have hlen : st.sessions.dropLast.length + 1 = st.sessions.length := by
    rw [List.length_dropLast]
    have := List.length_pos.mpr hne
    omega
  constructor
  · simp only [List.length_append, List.length_dropLast, List.length_cons,
      List.length_nil]
    omega
  · rw [List.getLast?_concat]
    simp only [Option.some.injEq]
    have hd : now - last.StartTime
        = last.Duration + (cur.StartTime - last.EndTime) + (now - cur.StartTime) := by
      omega
    simp [ActivitySession.mk.injEq, hd]

/-- C2: a session closing with duration below `minDuration` is discarded —
the closed-session list is unchanged, and the aggregation of the resulting
state equals the aggregation of the closed sessions alone, so the discarded
session contributes to no summary's `SessionCount`. -/
theorem minDuration_filter
    (st : ActivityTracker) (cur : ActivitySession) (now now2 : Int)
    (hcur : st.currentSession = some cur) (hact : cur.Active = true)
    (hshort : now - cur.StartTime < st.minDuration) :
    (endCurrentSessionUnsafe st now).sessions = st.sessions ∧
    GetActivitySummaries (endCurrentSessionUnsafe st now) now2
      = GetActivitySummaries { st with currentSession := none } now2 := by
  have hnotmin : ¬ st.minDuration ≤ now - cur.StartTime := by omega
  have hres : endCurrentSessionUnsafe st now
      = { st with currentSession := some ({ cur with EndTime := now, Duration := now - cur.StartTime, Active := false }) } := by
    unfold endCurrentSessionUnsafe
    rw [hcur]
    simp [hact, hnotmin]
  rw [hres]
  constructor
  · rfl
  · unfold GetActivitySummaries
    simp

/-- C5: a focus observation for an ignored application leaves no session
open, and the closed-session list is exactly what the normal close rule
(`endCurrentSessionUnsafe`) produces for the session that was open at the
call; no new session is started. -/
theorem ignored_focus_exclusion
    (st : ActivityTracker) (appClass windowTitle : String) (now : Int)
    (h : isAppIgnored st appClass = true) :
    (StartSession st appClass windowTitle now).currentSession = none ∧
    (StartSession st appClass windowTitle now).sessions
      = (endCurrentSessionUnsafe st now).sessions := by
  unfold StartSession
  simp only [h, if_true]
  by_cases hact : (st.currentSession.map (fun s => s.Active)).getD false = true
  · simp [hact]
  · rw [Bool.not_eq_true] at hact
    simp [hact, endCurrentSessionUnsafe_inactive st now hact]

/-- Witness for C1 at a concrete state: a closed `firefox` session 0s..90s,
an open `firefox` session from 100s, closed at 120s with default thresholds
(gap 10s <= 30s, duration 20s >= 10s). -/
theorem merge_on_close_witness :
    (endCurrentSessionUnsafe trackerWithOpenFirefox 120000000000).sessions.length
        = trackerWithOpenFirefox.sessions.length ∧
    (endCurrentSessionUnsafe trackerWithOpenFirefox 120000000000).sessions.getLast?
      = some { closedFirefoxSession with
          EndTime := (120000000000 : Int)
          Duration := closedFirefoxSession.Duration
                        + (openFirefoxSession.StartTime - closedFirefoxSession.EndTime)
                        + ((120000000000 : Int) - openFirefoxSession.StartTime)
          WindowTitle := openFirefoxSession.WindowTitle } :=
  merge_on_close trackerWithOpenFirefox openFirefoxSession closedFirefoxSession
    120000000000 (by decide) (by decide) (by decide) (by decide) (by decide)
    (by decide) (by decide)

/-- Witness for C2 at a concrete state: the open `firefox` session from 100s
closed at 105s (5s < 10s minimum) is discarded. -/
theorem minDuration_filter_witness :
    (endCurrentSessionUnsafe trackerWithOpenFirefox 105000000000).sessions
        = trackerWithOpenFirefox.sessions ∧
    GetActivitySummaries (endCurrentSessionUnsafe trackerWithOpenFirefox 105000000000)
        200000000000
      = GetActivitySummaries { trackerWithOpenFirefox with currentSession := none }
          200000000000 :=
  minDuration_filter trackerWithOpenFirefox openFirefoxSession
    105000000000 200000000000 (by decide) (by decide) (by decide)

/-- Witness for C5 at a concrete state: observing focus on the ignored
`firefox` closes the open session by the normal rule and opens nothing. -/
theorem ignored_focus_exclusion_witness :
    (StartSession trackerIgnoringFirefox "firefox" "Tab - Firefox"
        120000000000).currentSession = none ∧
    (StartSession trackerIgnoringFirefox "firefox" "Tab - Firefox"
        120000000000).sessions
      = (endCurrentSessionUnsafe trackerIgnoringFirefox 120000000000).sessions :=
  ignored_focus_exclusion trackerIgnoringFirefox "firefox" "Tab - Firefox"
    120000000000 (by decide)

/-! ## Payload validation -/

/-- C7: `validatePayload` returns an error exactly when the activity name is
empty, the duration is non-positive, the duration exceeds the 240-minute
cap, the start time is empty, or the start time fails to parse as
`YYYY-MM-DD HH:MM:SS`; the cap is boundary-inclusive — 300 minutes is
rejected with the cap error while exactly 240 minutes passes. -/
theorem validatePayload_spec :
    (∀ p : RescueTimePayload,
        validatePayload p = none ↔
          (p.ActivityName ≠ "" ∧ 0 < p.Duration ∧ p.Duration ≤ 240 ∧
           p.StartTime ≠ "" ∧ parseDateTime p.StartTime = true)) ∧
    validatePayload payload300 = some .durationExceedsLimit ∧
    validatePayload payload240 = none := by
  refine ⟨fun p => ?_, by decide, by decide⟩
  have hcap : Int.ediv maxOfflineDuration nsPerMinute = 240 := by decide
  unfold validatePayload
  rw [hcap]
  constructor
  · intro h
    split_ifs at h with h1 h2 h3 h4 h5
    · exact ⟨h1, by omega, by omega, h4, h5⟩
  · rintro ⟨h1, h2, h3, h4, h5⟩
    have h6 : ¬ p.Duration ≤ 0 := by omega
    have h7 : ¬ (240 : Int) < p.Duration := by omega
    simp [h1, h4, h5, h6, h7]

/-! ## Ignoring an application mid-session (`addIgnoredApp`) -/

/-- C6 counterexample: `addIgnoredApp` does not close the matching open
session.  With an open, active `firefox` session, adding `firefox` to the
ignore list leaves the very same session open and active, refuting "closes
that open session immediately". -/
theorem addIgnoredApp_counterexample :
    openFirefoxSession.AppClass = "firefox" ∧
    openFirefoxSession.Active = true ∧
    trackerWithOpenFirefox.currentSession = some openFirefoxSession ∧
    (addIgnoredApp trackerWithOpenFirefox "firefox").1.currentSession
        = some openFirefoxSession ∧
    (addIgnoredApp trackerWithOpenFirefox "firefox").1.currentSession ≠ none := by
  refine ⟨rfl, rfl, rfl, rfl, by decide⟩

/-- C6 amended: `addIgnoredApp` adds the identifier to the ignore set and
persists the whole set (including the new identifier) to the ignore file,
but leaves the tracker's session state — in particular a currently open
session for that very application — completely untouched; the open session
is only closed on a later focus observation. -/
theorem addIgnoredApp_spec (st : ActivityTracker) (appClass : String) :
    appClass ∈ (addIgnoredApp st appClass).1.ignoredApps ∧
    appClass ∈ (addIgnoredApp st appClass).2 ∧
    (∀ a ∈ st.ignoredApps, a ∈ (addIgnoredApp st appClass).2) ∧
    (addIgnoredApp st appClass).1.currentSession = st.currentSession ∧
    (addIgnoredApp st appClass).1.sessions = st.sessions := by
  have hset : appClass ∈ (addIgnoredApp st appClass).1.ignoredApps := by
    unfold addIgnoredApp
    by_cases h : appClass ∈ st.ignoredApps
    · simp [h]
    · simp [h]
  refine ⟨hset, List.mem_append_right _ hset, ?_, rfl, rfl⟩
  intro a ha
  have hmem : a ∈ (addIgnoredApp st appClass).1.ignoredApps := by
    unfold addIgnoredApp
    by_cases h : appClass ∈ st.ignoredApps
    · simp [h, ha]
    · simp [h, ha]
  exact List.mem_append_right _ hmem

/-! ## Submission loop -/

theorem submitStep_foldl_filter (hasNativeCredentials : Bool)
    (nativeOk : ActivitySummary → Bool) (legacyOk : RescueTimePayload → Bool)
    (summaries : List ActivitySummary) (acc : SubmitOutcome) :
    summaries.foldl (submitStep hasNativeCredentials nativeOk legacyOk) acc
      = (summaries.filter
          (fun s => !decide (s.TotalDuration < rescueTimeMinimumSubmit))).foldl
            (submitStep hasNativeCredentials nativeOk legacyOk) acc := by
  induction summaries generalizing acc with
  | nil => rfl
  | cons s tl ih =>
    by_cases h : s.TotalDuration < rescueTimeMinimumSubmit
    · have hstep : submitStep hasNativeCredentials nativeOk legacyOk acc s = acc := by
        simp [submitStep, h]
      simp [List.filter_cons, h, hstep, ih]
    · simp [List.filter_cons, h, ih]

theorem submitStep_foldl_attempted (hasNativeCredentials : Bool)
    (nativeOk : ActivitySummary → Bool) (legacyOk : RescueTimePayload → Bool)
    (summaries : List ActivitySummary) (acc : SubmitOutcome)
    (hacc : ∀ s ∈ acc.attempted, rescueTimeMinimumSubmit ≤ s.TotalDuration) :
    ∀ s ∈ (summaries.foldl (submitStep hasNativeCredentials nativeOk legacyOk)
        acc).attempted,
      rescueTimeMinimumSubmit ≤ s.TotalDuration := by
  induction summaries generalizing acc with
  | nil => exact hacc
  | cons s tl ih =>
    simp only [List.foldl_cons]
    apply ih
    intro x hx
    unfold submitStep at hx
    by_cases h : s.TotalDuration < rescueTimeMinimumSubmit
    · rw [if_pos h] at hx
      exact hacc x hx
    · rw [if_neg h] at hx
      by_cases hs : submitOneSummary hasNativeCredentials nativeOk legacyOk s = true
      · rw [if_pos hs] at hx
        simp only [List.mem_append, List.mem_singleton] at hx
        rcases hx with hx | rfl
        · exact hacc x hx
        · omega
      · rw [if_neg hs] at hx
        simp only [List.mem_append, List.mem_singleton] at hx
        rcases hx with hx | rfl
        · exact hacc x hx
        · omega

/-- C8: during batch submission, summaries with `TotalDuration` under five
minutes are skipped before any submission attempt: the whole outcome
(success count, failure count and the set of summaries for which a payload
was built and an attempt made) equals the outcome on the list with the short
summaries removed, and every attempted summary lasts at least five
minutes. -/
theorem submit_skips_short_summaries (hasNativeCredentials : Bool)
    (nativeOk : ActivitySummary → Bool) (legacyOk : RescueTimePayload → Bool)
    (summaries : List ActivitySummary) :
    submitActivitiesToRescueTime hasNativeCredentials nativeOk legacyOk summaries
      = submitActivitiesToRescueTime hasNativeCredentials nativeOk legacyOk
          (summaries.filter
            (fun s => !decide (s.TotalDuration < rescueTimeMinimumSubmit))) ∧
    ∀ s ∈ (submitActivitiesToRescueTime hasNativeCredentials nativeOk legacyOk
        summaries).attempted,
      rescueTimeMinimumSubmit ≤ s.TotalDuration := by
  constructor
  · unfold submitActivitiesToRescueTime
    exact submitStep_foldl_filter hasNativeCredentials nativeOk legacyOk summaries _
  · unfold submitActivitiesToRescueTime
    exact submitStep_foldl_attempted hasNativeCredentials nativeOk legacyOk
      summaries ⟨0, 0, []⟩ (by simp)

/-- C10: a summary longer than the four-hour cap converts to a legacy
payload whose `Duration` is the ceiling of its minutes, at least 241, which
`validatePayload` rejects; the submission flow applies no chunking, so such
a summary can never succeed through the validated legacy path — without
native credentials the item always fails, and with them it succeeds only if
the native API does. -/
theorem oversize_summary_never_legacy_submitted
    (summary : ActivitySummary) (h : maxOfflineDuration < summary.TotalDuration) :
    (summaryToPayload summary).Duration = ceilMinutes summary.TotalDuration ∧
    241 ≤ (summaryToPayload summary).Duration ∧
    (∃ e, validatePayload (summaryToPayload summary) = some e) ∧
    (∀ nativeOk legacyOk,
        submitOneSummary false nativeOk legacyOk summary = false) ∧
    (∀ nativeOk legacyOk,
        submitOneSummary true nativeOk legacyOk summary = nativeOk summary) := by
  have h241 : 241 ≤ (summaryToPayload summary).Duration := by
    show (241 : Int) ≤ ceilMinutes summary.TotalDuration
    unfold ceilMinutes nsPerMinute
    unfold maxOfflineDuration at h
    have hgoal : (241 : Int)
        ≤ (summary.TotalDuration + 60 * 1000000000 - 1) / (60 * 1000000000) := by
      rw [Int.le_ediv_iff_mul_le (by norm_num)]
      omega
    exact hgoal
  have hval : ∃ e, validatePayload (summaryToPayload summary) = some e := by
    unfold validatePayload
    by_cases hname : (summaryToPayload summary).ActivityName = ""
    · exact ⟨.emptyActivityName, by simp [hname]⟩
    · have hcap : Int.ediv maxOfflineDuration nsPerMinute
          < (summaryToPayload summary).Duration := by
        have h240 : Int.ediv maxOfflineDuration nsPerMinute = 240 := by decide
        omega
      have hpos : ¬ (summaryToPayload summary).Duration ≤ 0 := by omega
      exact ⟨.durationExceedsLimit, by simp [hname, hpos, hcap]⟩
  obtain ⟨e, he⟩ := hval
  refine ⟨rfl, h241, ⟨e, he⟩, ?_, ?_⟩
  · intro nativeOk legacyOk
    unfold submitOneSummary
    simp [he]
  · intro nativeOk legacyOk
    unfold submitOneSummary
    by_cases hn : nativeOk summary = true
    · simp [hn]
    · simp only [Bool.not_eq_true] at hn
      simp [hn, he]

/-- Witness for C10: the six-hour summary converts to a 360-minute payload
that every legacy submission path rejects. -/
theorem oversize_summary_witness :
    (summaryToPayload sixHourSummary).Duration = ceilMinutes sixHourSummary.TotalDuration ∧
    241 ≤ (summaryToPayload sixHourSummary).Duration ∧
    (∃ e, validatePayload (summaryToPayload sixHourSummary) = some e) ∧
    (∀ nativeOk legacyOk,
        submitOneSummary false nativeOk legacyOk sixHourSummary = false) ∧
    (∀ nativeOk legacyOk,
        submitOneSummary true nativeOk legacyOk sixHourSummary = nativeOk sixHourSummary) :=
  oversize_summary_never_legacy_submitted sixHourSummary (by decide)

/-! ## Duration chunker (spec-modelled, implementation absent from src) -/

theorem chunk_sumTotalDuration (s : ActivitySummary) (cap : Int) :
    sumTotalDuration (chunk s cap) = s.TotalDuration := by
  induction s, cap using chunk.induct with
  | case1 s cap h =>
    rw [chunk, if_pos h]
    simp [sumTotalDuration]
  | case2 s cap h ih =>
    rw [chunk, if_neg h]
    simp only [sumTotalDuration, List.map_cons, List.sum_cons] at ih ⊢
    rw [ih]
    ring

theorem chunk_each_le (s : ActivitySummary) (cap : Int) :
    0 < cap → ∀ c ∈ chunk s cap, c.TotalDuration ≤ cap := by
  induction s, cap using chunk.induct with
  | case1 s cap h =>
    intro hcap c hc
    rw [chunk, if_pos h] at hc
    simp only [List.mem_singleton] at hc
    subst hc
    rcases h with h | h
    · exact h
    · omega
  | case2 s cap h ih =>
    intro hcap c hc
    rw [chunk, if_neg h] at hc
    simp only [List.mem_cons] at hc
    rcases hc with rfl | hc
    · exact le_refl _
    · exact ih hcap c hc

theorem chunk_length (s : ActivitySummary) (cap : Int) :
    0 < cap → 0 < s.TotalDuration →
      ((chunk s cap).length : Int) = (s.TotalDuration + cap - 1) / cap := by
  induction s, cap using chunk.induct with
  | case1 s cap h =>
    intro hcap hpos
    rw [chunk, if_pos h]
    have hle : s.TotalDuration ≤ cap := by
      rcases h with h | h
      · exact h
      · omega
    have h1 : (1 : Int) ≤ (s.TotalDuration + cap - 1) / cap := by
      rw [Int.le_ediv_iff_mul_le hcap]
      omega
    have h2 : (s.TotalDuration + cap - 1) / cap < 2 := by
      rw [Int.ediv_lt_iff_lt_mul hcap]
      omega
    simp only [List.length_singleton, Nat.cast_one]
    omega
  | case2 s cap h ih =>
    intro hcap hpos
    rw [not_or, not_le, not_le] at h
    obtain ⟨hlt, -⟩ := h
    rw [chunk]
    rw [if_neg (by omega)]
    have hih := ih hcap (by simp only []; omega)
    simp only [List.length_cons, Nat.cast_add, Nat.cast_one]
    simp only [] at hih
    rw [hih]
    have hsplit : s.TotalDuration + cap - 1
        = (s.TotalDuration - 1) + 1 * cap := by ring
    rw [hsplit, Int.add_mul_ediv_right _ _ (by omega : cap ≠ 0)]
    have hsplit2 : s.TotalDuration - cap + cap - 1 = s.TotalDuration - 1 := by ring
    rw [hsplit2]

/-- C4: with a positive cap, chunking a summary whose `TotalDuration` is at
most the cap returns the single-element list holding the unchanged summary;
otherwise it returns exactly `ceil(TotalDuration / cap)` chunks, each with
`TotalDuration` at most the cap, whose durations sum exactly to the original
`TotalDuration`. -/
theorem chunk_spec (s : ActivitySummary) (cap : Int) (hcap : 0 < cap) :
    (s.TotalDuration ≤ cap → chunk s cap = [s]) ∧
    (cap < s.TotalDuration →
      ((chunk s cap).length : Int) = (s.TotalDuration + cap - 1) / cap ∧
      (∀ c ∈ chunk s cap, c.TotalDuration ≤ cap) ∧
      sumTotalDuration (chunk s cap) = s.TotalDuration) := by
  constructor
  · intro hle
    rw [chunk, if_pos (Or.inl hle)]
  · intro hgt
    exact ⟨chunk_length s cap hcap (by omega),
           chunk_each_le s cap hcap,
           chunk_sumTotalDuration s cap⟩

/-- Witness for C4, the spec scenario: a 6-hour summary chunked with the
4-hour cap yields exactly 2 chunks, each at most 4 hours, summing to 6
hours. -/
theorem chunk_spec_witness :
    ((chunk sixHourSummary maxOfflineDuration).length : Int) = 2 ∧
    (∀ c ∈ chunk sixHourSummary maxOfflineDuration,
        c.TotalDuration ≤ maxOfflineDuration) ∧
    sumTotalDuration (chunk sixHourSummary maxOfflineDuration)
      = sixHourSummary.TotalDuration := by
  have h := (chunk_spec sixHourSummary maxOfflineDuration (by decide)).2 (by decide)
  refine ⟨?_, h.2.1, h.2.2⟩
  rw [h.1]
  decide

/-! ## The stored-session invariant (C9) -/

theorem mem_of_getLast? {α : Type} {l : List α} {a : α}
    (h : l.getLast? = some a) : a ∈ l := by
  have hmem : a ∈ l.getLast? := by rw [Option.mem_def, h]
  obtain ⟨hne, rfl⟩ := List.mem_getLast?_eq_getLast hmem
  exact List.getLast_mem hne

theorem GoodStateP_mono {at_ : ActivityTracker} {t t' : Int}
    (h : GoodStateP at_ t) (hle : t ≤ t') : GoodStateP at_ t' := by
  obtain ⟨h0, h1, h2⟩ := h
  refine ⟨h0, fun s hs => ?_, fun cur hc ha => ?_⟩
  · obtain ⟨a, b, c⟩ := h1 s hs
    exact ⟨a, b, le_trans c hle⟩
  · obtain ⟨a, b⟩ := h2 cur hc ha
    exact ⟨a, le_trans b hle⟩

theorem GoodStateP_endCurrentSessionUnsafe (at_ : ActivityTracker) (t now : Int)
    (h : GoodStateP at_ t) (hle : t ≤ now) :
    GoodStateP (endCurrentSessionUnsafe at_ now) now := by
  obtain ⟨h0, h1, h2⟩ := h
  cases hc : at_.currentSession with
  | none =>
    rw [endCurrentSessionUnsafe_inactive at_ now (by rw [hc]; rfl)]
    exact GoodStateP_mono ⟨h0, h1, h2⟩ hle
  | some cur =>
    by_cases hact : cur.Active = true
    · obtain ⟨hbound, hstart⟩ := h2 cur hc hact
      unfold endCurrentSessionUnsafe
      rw [hc]
      simp only [hact, Bool.true_eq_false, if_false]
      by_cases hmin : at_.minDuration ≤ now - cur.StartTime
      · simp only [hmin, if_pos, if_true]
        by_cases hm : shouldMergeWithLastSession
            { at_ with currentSession := some ({ cur with EndTime := now, Duration := now - cur.StartTime, Active := false }) } = true
        · simp only [hm, if_true]
          unfold mergeWithLastSession
          cases hgl : at_.sessions.getLast? with
          | none =>
            unfold shouldMergeWithLastSession at hm
            simp only [hgl] at hm
            simp at hm
          | some last =>
            simp only [hgl]
            have hlastmem : last ∈ at_.sessions := mem_of_getLast? hgl
            obtain ⟨hld, hlmin, hlend⟩ := h1 last hlastmem
            have hlcur : last.EndTime ≤ cur.StartTime := hbound last hlastmem
            refine ⟨h0, fun s hs => ?_, fun cur' hc' ha' => ?_⟩
            · simp only [List.mem_append, List.mem_singleton] at hs
              rcases hs with hs | rfl
              · have hmem : s ∈ at_.sessions := List.dropLast_subset _ hs
                obtain ⟨a, b, c⟩ := h1 s hmem
                exact ⟨a, b, by omega⟩
              · refine ⟨rfl, ?_, le_refl now⟩
                show at_.minDuration ≤ now - last.StartTime
                omega
            · simp only [Option.some.injEq] at hc'
              subst hc'
              simp at ha'
        · simp only [hm, Bool.false_eq_true, if_false]
          refine ⟨h0, fun s hs => ?_, fun cur' hc' ha' => ?_⟩
          · simp only [List.mem_append, List.mem_singleton] at hs
            rcases hs with hs | rfl
            · obtain ⟨a, b, c⟩ := h1 s hs
              exact ⟨a, b, by omega⟩
            · exact ⟨rfl, hmin, le_refl now⟩
          · simp only [Option.some.injEq] at hc'
            subst hc'
            simp at ha'
      · simp only [hmin, if_false]
        refine ⟨h0, fun s hs => ?_, fun cur' hc' ha' => ?_⟩
        · obtain ⟨a, b, c⟩ := h1 s hs
          exact ⟨a, b, by omega⟩
        · simp only [Option.some.injEq] at hc'
          subst hc'
          simp at ha'
    · rw [Bool.not_eq_true] at hact
      rw [endCurrentSessionUnsafe_inactive at_ now (by rw [hc]; simpa using hact)]
      exact GoodStateP_mono ⟨h0, h1, h2⟩ hle

theorem GoodStateP_StartSession (at_ : ActivityTracker) (t now : Int)
    (appClass windowTitle : String)
    (h : GoodStateP at_ t) (hle : t ≤ now) :
    GoodStateP (StartSession at_ appClass windowTitle now) now := by
  have hend := GoodStateP_endCurrentSessionUnsafe at_ t now h hle
  have hmid : GoodStateP
      (if (at_.currentSession.map (fun s => s.Active)).getD false then
        endCurrentSessionUnsafe at_ now
      else at_) now := by
    by_cases hact : (at_.currentSession.map (fun s => s.Active)).getD false = true
    · rw [if_pos hact]
      exact hend
    · rw [if_neg hact]
      exact GoodStateP_mono h hle
  obtain ⟨m0, m1, m2⟩ := hmid
  unfold StartSession
  by_cases hig : isAppIgnored at_ appClass = true
  · simp only [hig, if_true]
    exact ⟨m0, m1, fun cur hc => by simp at hc⟩
  · simp only [hig, Bool.false_eq_true, if_false]
    refine ⟨m0, m1, fun cur hc ha => ?_⟩
    simp only [Option.some.injEq] at hc
    subst hc
    refine ⟨fun s hs => ?_, le_refl now⟩
    exact (m1 s hs).2.2

theorem GoodStateP_applyOp (at_ : ActivityTracker) (t now : Int) (op : TrackerOp)
    (h : GoodStateP at_ t) (hle : t ≤ now) :
    GoodStateP (applyOp at_ op now) now := by
  cases op with
  | startSession appClass windowTitle =>
    exact GoodStateP_StartSession at_ t now appClass windowTitle h hle
  | endCurrentSession =>
    exact GoodStateP_endCurrentSessionUnsafe at_ t now h hle
  | clearCompletedSessions =>
    obtain ⟨h0, h1, h2⟩ := h
    refine ⟨h0, by simp [applyOp, ClearCompletedSessions], fun cur hc ha => ?_⟩
    obtain ⟨a, b⟩ := h2 cur hc ha
    exact ⟨by simp [applyOp, ClearCompletedSessions], by omega⟩

theorem minDuration_endCurrentSessionUnsafe (at_ : ActivityTracker) (now : Int) :
    (endCurrentSessionUnsafe at_ now).minDuration = at_.minDuration := by
  cases hc : at_.currentSession with
  | none => rw [endCurrentSessionUnsafe_inactive at_ now (by rw [hc]; rfl)]
  | some cur =>
    by_cases hact : cur.Active = true
    · unfold endCurrentSessionUnsafe
      rw [hc]
      simp only [hact, Bool.true_eq_false, if_false]
      by_cases hmin : at_.minDuration ≤ now - cur.StartTime
      · simp only [hmin, if_true]
        by_cases hm : shouldMergeWithLastSession
            { at_ with currentSession := some ({ cur with EndTime := now, Duration := now - cur.StartTime, Active := false }) } = true
        · simp only [hm, if_true]
          cases hgl : at_.sessions.getLast? with
          | none => simp [mergeWithLastSession, hgl]
          | some last => simp [mergeWithLastSession, hgl]
        · simp only [hm, Bool.false_eq_true, if_false]
      · simp only [hmin, if_false]
    · rw [Bool.not_eq_true] at hact
      rw [endCurrentSessionUnsafe_inactive at_ now (by rw [hc]; simpa using hact)]

theorem minDuration_applyOp (at_ : ActivityTracker) (op : TrackerOp) (now : Int) :
    (applyOp at_ op now).minDuration = at_.minDuration := by
  cases op with
  | startSession appClass windowTitle =>
    show (StartSession at_ appClass windowTitle now).minDuration = at_.minDuration
    unfold StartSession
    by_cases hig : isAppIgnored at_ appClass = true
    · simp only [hig, if_true]
      by_cases hact : (at_.currentSession.map (fun s => s.Active)).getD false = true
      · simp only [hact, if_true]
        exact minDuration_endCurrentSessionUnsafe at_ now
      · simp only [hact, Bool.false_eq_true, if_false]
    · simp only [hig, Bool.false_eq_true, if_false]
      by_cases hact : (at_.currentSession.map (fun s => s.Active)).getD false = true
      · simp only [hact, if_true]
        exact minDuration_endCurrentSessionUnsafe at_ now
      · simp only [hact, Bool.false_eq_true, if_false]
  | endCurrentSession => exact minDuration_endCurrentSessionUnsafe at_ now
  | clearCompletedSessions => rfl

/-- C9: starting from a wellformed tracker state, after any sequence of
`StartSession` / `EndCurrentSession` / `ClearCompletedSessions` operations
with monotone timestamps, every entry stored in the closed-session list
satisfies `Duration = EndTime - StartTime` and `Duration >= minDuration`
(merging preserves the equality because the merged entry's duration is
recomputed from its extended endpoints). -/
theorem tracker_sessions_invariant
    (at_ : ActivityTracker) (t : Int) (ops : List (TrackerOp × Int))
    (s : ActivitySession)
    (hgood : GoodStateP at_ t) (hmono : timesMonoB t ops = true)
    (hs : s ∈ (runOps at_ ops).sessions) :
    s.Duration = s.EndTime - s.StartTime ∧ at_.minDuration ≤ s.Duration := by
  induction ops generalizing at_ t with
  | nil =>
    obtain ⟨a, b, -⟩ := hgood.2.1 s hs
    exact ⟨a, b⟩
  | cons p rest ih =>
    obtain ⟨op, now⟩ := p
    simp only [timesMonoB, Bool.and_eq_true, decide_eq_true_eq] at hmono
    obtain ⟨hle, hmono'⟩ := hmono
    have hstep := GoodStateP_applyOp at_ t now op hgood hle
    have hres := ih (applyOp at_ op now) now hstep hmono' hs
    rw [minDuration_applyOp at_ op now] at hres
    exact hres

/-- Witness for C9: the empty tracker, the three-operation demo run, and the
resulting closed `firefox` session. -/
theorem tracker_sessions_invariant_witness :
    GoodStateP emptyTracker 0 ∧
    timesMonoB 0 demoOps = true ∧
    demoFirefoxClosed ∈ (runOps emptyTracker demoOps).sessions ∧
    (demoFirefoxClosed.Duration
        = demoFirefoxClosed.EndTime - demoFirefoxClosed.StartTime ∧
      emptyTracker.minDuration ≤ demoFirefoxClosed.Duration) := by
  have hgood : GoodStateP emptyTracker 0 := by
    refine ⟨by decide, by simp [emptyTracker], fun cur hc => ?_⟩
    simp [emptyTracker] at hc
  refine ⟨hgood, by decide, by decide, ?_⟩
  exact tracker_sessions_invariant emptyTracker 0 demoOps demoFirefoxClosed
    hgood (by decide) (by decide)

end RescueTime
